import Mathlib

/-!
Verification development for the electrobenin backend order/stock core.

The definitions below are a shallow embedding of:
  - the Product model (src/unnamed/part_000): `decreaseStock`, the pre-save
    tag hook;
  - the Order model (src/models/Order.js): the orderNumber pre-save hook,
    the statusHistory pre-save hook, the instance methods `markAsPaid`,
    `cancel`, `updateStatus`, the virtual `canBeCancelled`;
  - the order controller (src/controllers/orderController.js): `createOrder`
    (the per-item check/decrement loop), `cancelOrder` (the stock-restore
    loop), `markAsPaid`, `updateOrderStatus`.

The document store is modelled as a function from identifiers to optional
documents; `save` on a fetched document writes it back at the identifier it
was fetched from. JavaScript numbers holding stocks, quantities and prices
are modelled as `Int`; Mongoose `isModified('status')` is modelled as the
new status differing from the loaded one (Mongoose does not mark a path
modified when it is re-assigned an equal primitive value).
-/

/-- Product document (src/unnamed/part_000): the fields the order/stock core
reads or writes. `name` is the French name snapshot the controller uses. -/
structure Product where
  name : String
  price : Int
  stock : Int
  minStock : Int
  tag : Option String
  sales : Int
deriving Repr, DecidableEq

/-- Tag part of the product pre-save hook (part_000 lines 194-199): stock 0
forces the RUPTURE tag; low stock clears a non-PROMOTION tag. The slug part
of the hook only touches the slug and is not modelled. -/
def productSaveHook (p : Product) : Product :=
  if p.stock = 0 then { p with tag := some ("RUPTURE") }
  else if p.stock ≤ p.minStock ∧ p.tag ≠ some ("PROMOTION") then { p with tag := none }
  else p

/-- Message thrown by decreaseStock (part_000 line 242). -/
def msgStockInsufficient : String := "Stock insuffisant"

/-- Embedding of productSchema.methods.decreaseStock (part_000 lines
240-247); the final `this.save()` applies the product pre-save hook. -/
def decreaseStock (p : Product) (quantity : Int) : Except String Product :=
  if p.stock < quantity then Except.error msgStockInsufficient
  else Except.ok (productSaveHook { p with stock := p.stock - quantity, sales := p.sales + quantity })

/-- The catalog store: products keyed by identifier. -/
def Catalog : Type := Nat → Option Product

/-- Write a (saved) product back at the identifier it was fetched from. -/
def updateProduct (cat : Catalog) (pid : Nat) (p : Product) : Catalog :=
  fun i => if i = pid then some p else cat i

/-- One entry of the request body's items array in createOrder. -/
structure ReqItem where
  product : Nat
  quantity : Int
deriving Repr, DecidableEq

/-- One order line item as built by the createOrder loop (orderController.js
lines 41-48): product reference plus name/price snapshot and subtotal. -/
structure OrderItem where
  product : Nat
  name : String
  price : Int
  quantity : Int
  subtotal : Int
deriving Repr, DecidableEq

/-- The error responses the createOrder loop can send. -/
inductive CreateError where
  | notFound (productId : Nat)
  | insufficientStock (name : String) (available : Int)
  | thrown (msg : String)
deriving Repr, DecidableEq

/-- Embedding of the createOrder per-item loop (orderController.js lines
23-52): look the product up; 404 if absent; 400 carrying the available
stock if `stock < quantity`; otherwise snapshot the line item, accumulate
the subtotal and decrement the stock, persisting immediately. The returned
catalog reflects every decrement applied before a failure: the code has no
rollback on the error paths. -/
def processItems (cat : Catalog) : List ReqItem → Int → List OrderItem →
    (Except CreateError (Int × List OrderItem)) × Catalog
  | [], subtotal, acc => (Except.ok (subtotal, acc), cat)
  | item :: rest, subtotal, acc =>
    match cat item.product with
    | none => (Except.error (CreateError.notFound item.product), cat)
    | some product =>
      if product.stock < item.quantity then
        (Except.error (CreateError.insufficientStock product.name product.stock), cat)
      else
        let itemSubtotal := product.price * item.quantity
        let oi : OrderItem :=
          ⟨item.product, product.name, product.price, item.quantity, itemSubtotal⟩
        match decreaseStock product item.quantity with
        | Except.error msg => (Except.error (CreateError.thrown msg), cat)
        | Except.ok p2 =>
          processItems (updateProduct cat item.product p2) rest (subtotal + itemSubtotal) (acc ++ [oi])

/-- Embedding of the stock-restore loop of cancelOrder (orderController.js
lines 185-192): for each line item, if the product still exists, increment
its stock and save (the save applies the product pre-save hook); items whose
product is gone are silently skipped. -/
def restoreItems (cat : Catalog) : List OrderItem → Catalog
  | [] => cat
  | item :: rest =>
    match cat item.product with
    | none => restoreItems cat rest
    | some product =>
      restoreItems
        (updateProduct cat item.product
          (productSaveHook { product with stock := product.stock + item.quantity })) rest

/-- One statusHistory entry (Order.js lines 112-126). -/
structure HistoryEntry where
  status : String
  note : Option String
  updatedBy : Option Nat
  timestamp : Nat
deriving Repr, DecidableEq

/-- Pricing block (Order.js lines 79-105). -/
structure Pricing where
  subtotal : Int
  shippingCost : Int
  tax : Int
  discount : Int
  total : Int
deriving Repr, DecidableEq

/-- paymentDetails block (Order.js lines 74-78). -/
structure PaymentDetails where
  transactionId : Option String
  paidAt : Option Nat
  provider : Option String
deriving Repr, DecidableEq

/-- The payment-relevant fields of the request body merged by markAsPaid. -/
structure PaymentInfo where
  transactionId : Option String
  provider : Option String
deriving Repr, DecidableEq

/-- Order document (Order.js): the fields the lifecycle core reads or
writes. `orderNumber = ""` models an order number not yet assigned. -/
structure Order where
  orderNumber : String
  user : Nat
  items : List OrderItem
  status : String
  statusHistory : List HistoryEntry
  isPaid : Bool
  paidAt : Option Nat
  paymentDetails : PaymentDetails
  isDelivered : Bool
  deliveredAt : Option Nat
  cancelledAt : Option Nat
  cancellationReason : Option String
  pricing : Pricing
deriving Repr, DecidableEq

/-- JavaScript padStart with the zero character: left-pad a string to the
requested length. -/
def padStart (n : Nat) (s : String) : String :=
  if n ≤ s.length then s else String.mk (List.replicate (n - s.length) '0') ++ s

/-- Two-place zero pad of a number, as `toString().padStart(2, zero)`. -/
def pad2 (m : Nat) : String := padStart 2 (Nat.repr m)

/-- Four-place zero pad of a number, as `toString().padStart(4, zero)`. -/
def pad4 (m : Nat) : String := padStart 4 (Nat.repr m)

/-- JavaScript slice(-2): the last two characters of a string. -/
def lastTwoStr (s : String) : String := String.mk (s.toList.drop (s.toList.length - 2))

/-- The order-number computation of the orderNumber pre-save hook (Order.js
lines 158-171): EB, then the last two digits of the full year, the 1-based
month and day of month each padded to two places, and the same-day order
count plus one padded to four places. -/
def generateOrderNumber (year month day count : Nat) : String :=
  "EB" ++ lastTwoStr (Nat.repr year) ++ pad2 month ++ pad2 day ++ pad4 (count + 1)

/-- The shape the spec gives for order numbers: prefix, two-digit year,
two-digit month, two-digit day, 4-digit zero-padded sequence value. Stated
from the spec wording, to be compared with `generateOrderNumber`. -/
def specOrderNumberShape (year month day count : Nat) : String :=
  "EB" ++ pad2 (year % 100) ++ pad2 month ++ pad2 day ++ pad4 (count + 1)

/-- Embedding of the orderNumber pre-save hook (Order.js lines 156-174):
only a new document without a number gets one; the hook contains no retry
and no collision handling. -/
def orderNumberHook (o : Order) (isNew : Bool) (year month day count : Nat) : Order :=
  if isNew && o.orderNumber == "" then
    { o with orderNumber := generateOrderNumber year month day count }
  else o

/-- Embedding of the statusHistory pre-save hook (Order.js lines 177-185):
append an entry only when the status was modified on an already-persisted
document. -/
def statusHistoryHook (o : Order) (isNew statusModified : Bool) (now : Nat) : Order :=
  if statusModified && !isNew then
    { o with statusHistory := o.statusHistory ++ [⟨o.status, none, none, now⟩] }
  else o

/-- Merge of `{...this.paymentDetails, ...paymentInfo, paidAt: new Date()}`
(Order.js lines 198-202): request fields override stored ones when present,
and paidAt is always set to now. -/
def mergePaymentDetails (old : PaymentDetails) (info : PaymentInfo) (now : Nat) : PaymentDetails :=
  { transactionId := info.transactionId.orElse (fun _ => old.transactionId),
    paidAt := some now,
    provider := info.provider.orElse (fun _ => old.provider) }

/-- Embedding of orderSchema.methods.markAsPaid (Order.js lines 195-209),
followed by the save pipeline on the persisted document. -/
def Order.markAsPaid (o : Order) (info : PaymentInfo) (now : Nat) : Order :=
  let o1 := { o with
    isPaid := true,
    paidAt := some now,
    paymentDetails := mergePaymentDetails o.paymentDetails info now,
    status := if o.status = "pending" then "confirmed" else o.status }
  statusHistoryHook o1 false (o1.status != o.status) now

/-- Embedding of orderSchema.methods.cancel (Order.js lines 230-236),
followed by the save pipeline on the persisted document. -/
def Order.cancel (o : Order) (reason : String) (now : Nat) : Order :=
  let o1 := { o with
    status := "cancelled",
    cancelledAt := some now,
    cancellationReason := some reason }
  statusHistoryHook o1 false (o1.status != o.status) now

/-- Embedding of orderSchema.methods.updateStatus (Order.js lines 261-271):
set the status, push an entry with note and actor, then save (which runs the
statusHistory hook). -/
def Order.updateStatus (o : Order) (status : String) (note : Option String)
    (userId : Nat) (now : Nat) : Order :=
  let o1 := { o with
    status := status,
    statusHistory := o.statusHistory ++ [⟨status, note, some userId, now⟩] }
  statusHistoryHook o1 false (o1.status != o.status) now

/-- Embedding of the canBeCancelled virtual (Order.js lines 280-282). -/
def Order.canBeCancelled (o : Order) : Bool :=
  ["pending", "confirmed"].contains o.status

/-- Default cancellation reason of the controller (orderController.js 195). -/
def defaultCancelReason : String := "Annulée par le client"

/-- Embedding of createOrder (orderController.js lines 16-75) given the
found user and request body: run the per-item loop, then Order.create with
status defaulting to pending and an empty history, whose save runs the two
pre-save hooks (the statusHistory hook does nothing on a new document). The
date parts and the same-day count the orderNumber hook reads are passed in
explicitly. -/
def createOrder (cat : Catalog) (userId : Nat) (items : List ReqItem)
    (year month day count now : Nat) : (Except CreateError Order) × Catalog :=
  match processItems cat items 0 [] with
  | (Except.error e, cat2) => (Except.error e, cat2)
  | (Except.ok (subtotal, orderItems), cat2) =>
    let o : Order := {
      orderNumber := "",
      user := userId,
      items := orderItems,
      status := "pending",
      statusHistory := [],
      isPaid := false,
      paidAt := none,
      paymentDetails := ⟨none, none, none⟩,
      isDelivered := false,
      deliveredAt := none,
      cancelledAt := none,
      cancellationReason := none,
      pricing := ⟨subtotal, 0, 0, 0, subtotal⟩ }
    let o1 := orderNumberHook o true year month day count
    let o2 := statusHistoryHook o1 true true now
    (Except.ok o2, cat2)

/-- Result of the cancelOrder controller, order found and owned. -/
inductive CancelResult where
  | notCancellable (status : String)
  | ok (order : Order)
deriving Repr, DecidableEq

/-- Embedding of cancelOrder (orderController.js lines 162-200) from the
cancellability check on: refuse with the current status if the order is not
cancellable; otherwise restore stock for the line items whose product still
exists, then cancel the order (reason defaulting when absent). -/
def cancelOrder (cat : Catalog) (o : Order) (reason : Option String) (now : Nat) :
    CancelResult × Catalog :=
  if !o.canBeCancelled then (CancelResult.notCancellable o.status, cat)
  else
    let cat2 := restoreItems cat o.items
    (CancelResult.ok (o.cancel (reason.getD defaultCancelReason) now), cat2)

/-- Result of the markAsPaid controller, order found. -/
inductive PayResult where
  | alreadyPaid
  | ok (order : Order)
deriving Repr, DecidableEq

/-- Embedding of the markAsPaid controller (orderController.js lines
207-223) from the paid check on. -/
def markAsPaidCtrl (o : Order) (info : PaymentInfo) (now : Nat) : PayResult :=
  if o.isPaid then PayResult.alreadyPaid else PayResult.ok (o.markAsPaid info now)

/-- The six status values the controller accepts (orderController.js 262). -/
def validStatuses : List String :=
  ["pending", "confirmed", "processing", "shipped", "delivered", "cancelled"]

/-- Result of the updateOrderStatus controller, order found. -/
inductive StatusResult where
  | invalidStatus
  | ok (order : Order)
deriving Repr, DecidableEq

/-- Embedding of the updateOrderStatus controller (orderController.js lines
253-273) from the status validation on. -/
def updateOrderStatus (o : Order) (status : String) (note : Option String)
    (userId now : Nat) : StatusResult :=
  if !(validStatuses.contains status) then StatusResult.invalidStatus
  else StatusResult.ok (o.updateStatus status note userId now)

/-- Duplicate-key rejection message of the store's unique index. -/
def msgDuplicateKey : String := "E11000 duplicate key"

/-- Saving a new order against the store's unique index on orderNumber
(Order.js lines 8-12): the pre-save hooks run, then the insert is rejected
when the generated number already exists. The code wraps the save in no
catch and performs no retry, so the rejection propagates as-is. -/
def insertNewOrder (existing : List String) (o : Order) (year month day count now : Nat) :
    Except String Order :=
  let o1 := orderNumberHook o true year month day count
  let o2 := statusHistoryHook o1 true true now
  if existing.contains o2.orderNumber then Except.error msgDuplicateKey
  else Except.ok o2

/-- Total quantity contributed to one product by a list of
(product, quantity) pairs. -/
def pairQty (pid : Nat) : List (Nat × Int) → Int
  | [] => 0
  | q :: rest => (if q.1 = pid then q.2 else 0) + pairQty pid rest

/-- The (product, quantity) pairs of a request items list. -/
def reqPairs (items : List ReqItem) : List (Nat × Int) :=
  items.map (fun i => (i.product, i.quantity))

/-- The (product, quantity) pairs of an order items list. -/
def itemPairs (items : List OrderItem) : List (Nat × Int) :=
  items.map (fun i => (i.product, i.quantity))

/-- Total quantity a request asks of one product. -/
def reqQty (items : List ReqItem) (pid : Nat) : Int := pairQty pid (reqPairs items)

/-- Total quantity an order's line items hold of one product. -/
def itemQty (items : List OrderItem) (pid : Nat) : Int := pairQty pid (itemPairs items)

/-- Every product present in the catalog has non-negative stock. -/
def nonnegCatalog (cat : Catalog) : Prop :=
  ∀ pid p, cat pid = some p → 0 ≤ p.stock

/-- One operation of the stock reservation engine. -/
inductive StockOp where
  | reserve (items : List ReqItem)
  | restore (items : List OrderItem)
deriving Repr, DecidableEq

/-- Restore operations act on persisted line items, whose schema enforces
quantity at least 1; reserve operations take raw request input. -/
def stockOpWF : StockOp → Bool
  | StockOp.reserve _ => true
  | StockOp.restore items => items.all (fun it => decide (1 ≤ it.quantity))

/-- Apply one stock operation to the catalog, keeping whatever state the
operation leaves behind (also on failure). -/
def applyStockOp (cat : Catalog) : StockOp → Catalog
  | StockOp.reserve items => (processItems cat items 0 []).2
  | StockOp.restore items => restoreItems cat items

/-- Apply a sequence of stock operations left to right. -/
def applyStockOps (cat : Catalog) : List StockOp → Catalog
  | [] => cat
  | op :: ops => applyStockOps (applyStockOp cat op) ops

theorem productSaveHook_stock (p : Product) : (productSaveHook p).stock = p.stock := by
  unfold productSaveHook
  split
  · rfl
  · split <;> rfl

/-- Sample catalog for concrete checks: one product, stock 5, at key 1. -/
def sampleCat : Catalog := fun pid => if pid = 1 then some ⟨"Uno", 10, 5, 5, none, 0⟩ else none

/-- The order createOrder builds from sampleCat for two units of product 1
on 2025-10-06 with same-day count 0. -/
def sampleOrder : Order := {
  orderNumber := "EB2510060001",
  user := 7,
  items := [⟨1, "Uno", 10, 2, 20⟩],
  status := "pending",
  statusHistory := [],
  isPaid := false,
  paidAt := none,
  paymentDetails := ⟨none, none, none⟩,
  isDelivered := false,
  deliveredAt := none,
  cancelledAt := none,
  cancellationReason := none,
  pricing := ⟨20, 0, 0, 0, 20⟩ }

/-- Sample payment info body for markAsPaid checks. -/
def samplePayInfo : PaymentInfo := ⟨some ("TX1"), some ("MTN")⟩

/-- Catalog with two products for the partial-failure check: product 1 has
stock 3, product 2 has stock 5. -/
def c1cat : Catalog := fun pid =>
  if pid = 1 then some ⟨"Uno", 10, 3, 5, none, 0⟩
  else if pid = 2 then some ⟨"DHT22", 20, 5, 5, none, 0⟩ else none

/-- Product with stock 1 for the insufficient-stock check. -/
def c2prod : Product := ⟨"Uno", 10, 1, 5, none, 0⟩

/-- Catalog holding c2prod at key 1. -/
def c2cat : Catalog := fun pid => if pid = 1 then some c2prod else none

/-- A concrete reserve-then-restore operation sequence over c2cat. -/
def c2ops : List StockOp := [StockOp.reserve [⟨1, 1⟩], StockOp.restore [⟨1, "Uno", 10, 1, 10⟩]]

/-- A new order before its number is assigned. -/
def c6blank : Order := { sampleOrder with orderNumber := "" }

/-- An unpaid order sitting in the processing status. -/
def c8proc : Order := { sampleOrder with status := "processing" }

/-- A cancellable order one of whose line items references product 9, which
is absent from sampleCat. -/
def c10order : Order := { sampleOrder with items := [⟨1, "Uno", 10, 2, 20⟩, ⟨9, "Gone", 5, 4, 20⟩] }

/-- The order carried by a successful PayResult. -/
def payResultOrder : PayResult → Option Order
  | PayResult.alreadyPaid => none
  | PayResult.ok o => some o

/-- The order carried by a successful StatusResult. -/
def statusResultOrder : StatusResult → Option Order
  | StatusResult.invalidStatus => none
  | StatusResult.ok o => some o

deriving instance DecidableEq for Except

set_option maxRecDepth 4000

theorem updateProduct_self (cat : Catalog) (pid : Nat) (p : Product) :
    updateProduct cat pid p pid = some p := by
  simp [updateProduct]

theorem updateProduct_other (cat : Catalog) (pid i : Nat) (p : Product) (h : i ≠ pid) :
    updateProduct cat pid p i = cat i := by
  simp [updateProduct, h]

theorem updateProduct_nonneg (cat : Catalog) (pid : Nat) (p : Product)
    (hcat : nonnegCatalog cat) (hp : 0 ≤ p.stock) : nonnegCatalog (updateProduct cat pid p) := by
  intro i q hq
  unfold updateProduct at hq
  split at hq
  · injection hq with h
    subst h
    exact hp
  · exact hcat i q hq

theorem itemQty_nil (pid : Nat) : itemQty [] pid = 0 := rfl

theorem itemQty_cons (it : OrderItem) (rest : List OrderItem) (pid : Nat) :
    itemQty (it :: rest) pid = (if it.product = pid then it.quantity else 0) + itemQty rest pid := rfl

theorem reqQty_nil (pid : Nat) : reqQty [] pid = 0 := rfl

theorem reqQty_cons (it : ReqItem) (rest : List ReqItem) (pid : Nat) :
    reqQty (it :: rest) pid = (if it.product = pid then it.quantity else 0) + reqQty rest pid := rfl

theorem decreaseStock_ok (p : Product) (q : Int) (h : ¬ p.stock < q) :
    decreaseStock p q =
      Except.ok (productSaveHook { p with stock := p.stock - q, sales := p.sales + q }) := by
  unfold decreaseStock
  rw [if_neg h]

theorem restoreItems_cons (cat : Catalog) (it : OrderItem) (rest : List OrderItem) :
    restoreItems cat (it :: rest) =
      match cat it.product with
      | none => restoreItems cat rest
      | some q => restoreItems (updateProduct cat it.product
          (productSaveHook { q with stock := q.stock + it.quantity })) rest := rfl

theorem restoreItems_cons_none (cat : Catalog) (it : OrderItem) (rest : List OrderItem)
    (h : cat it.product = none) : restoreItems cat (it :: rest) = restoreItems cat rest := by
  rw [restoreItems_cons, h]

theorem restoreItems_cons_some (cat : Catalog) (it : OrderItem) (rest : List OrderItem)
    (q : Product) (h : cat it.product = some q) :
    restoreItems cat (it :: rest) =
      restoreItems (updateProduct cat it.product
        (productSaveHook { q with stock := q.stock + it.quantity })) rest := by
  rw [restoreItems_cons, h]

theorem restoreItems_stock (items : List OrderItem) :
    ∀ (cat : Catalog) (pid : Nat) (p : Product), cat pid = some p →
      ∃ p2, restoreItems cat items pid = some p2 ∧ p2.stock = p.stock + itemQty items pid := by
  induction items with
  | nil =>
    intro cat pid p hp
    exact ⟨p, hp, by rw [itemQty_nil]; omega⟩
  | cons it rest ih =>
    intro cat pid p hp
    rw [itemQty_cons]
    cases hfind : cat it.product with
    | none =>
      have hne : it.product ≠ pid := by
        intro e
        rw [e, hp] at hfind
        exact Option.noConfusion hfind
      obtain ⟨p2, h2, hs⟩ := ih cat pid p hp
      refine ⟨p2, ?_, ?_⟩
      · rw [restoreItems_cons_none cat it rest hfind]
        exact h2
      · rw [if_neg hne]
        omega
    | some q =>
      rw [restoreItems_cons_some cat it rest q hfind]
      by_cases he : it.product = pid
      · have hpq : q = p := by
          rw [he, hp] at hfind
          injection hfind with h2
          exact h2.symm
        subst hpq
        have hupd : updateProduct cat it.product
            (productSaveHook { q with stock := q.stock + it.quantity }) pid = some
            (productSaveHook { q with stock := q.stock + it.quantity }) := by
          rw [← he]
          exact updateProduct_self cat it.product _
        obtain ⟨p2, h2, hs⟩ := ih _ pid _ hupd
        refine ⟨p2, h2, ?_⟩
        rw [productSaveHook_stock] at hs
        simp only at hs
        rw [if_pos he]
        omega
      · have hupd : updateProduct cat it.product
            (productSaveHook { q with stock := q.stock + it.quantity }) pid = some p := by
          rw [updateProduct_other cat it.product pid _ (fun e => he e.symm)]
          exact hp
        obtain ⟨p2, h2, hs⟩ := ih _ pid p hupd
        refine ⟨p2, h2, ?_⟩
        rw [if_neg he]
        omega

theorem restoreItems_none (items : List OrderItem) :
    ∀ (cat : Catalog) (pid : Nat), cat pid = none → restoreItems cat items pid = none := by
  induction items with
  | nil =>
    intro cat pid hp
    exact hp
  | cons it rest ih =>
    intro cat pid hp
    cases hfind : cat it.product with
    | none =>
      rw [restoreItems_cons_none cat it rest hfind]
      exact ih cat pid hp
    | some q =>
      have hne : pid ≠ it.product := by
        intro e
        rw [← e, hp] at hfind
        exact Option.noConfusion hfind
      rw [restoreItems_cons_some cat it rest q hfind]
      apply ih
      rw [updateProduct_other cat it.product pid _ hne]
      exact hp

theorem restoreItems_nonneg (items : List OrderItem) :
    (∀ it ∈ items, 1 ≤ it.quantity) →
    ∀ (cat : Catalog), nonnegCatalog cat → nonnegCatalog (restoreItems cat items) := by
  induction items with
  | nil =>
    intro _ cat hcat
    exact hcat
  | cons it rest ih =>
    intro hq cat hcat
    cases hfind : cat it.product with
    | none =>
      rw [restoreItems_cons_none cat it rest hfind]
      exact ih (fun x hx => hq x (List.mem_cons_of_mem it hx)) cat hcat
    | some q =>
      rw [restoreItems_cons_some cat it rest q hfind]
      apply ih (fun x hx => hq x (List.mem_cons_of_mem it hx))
      apply updateProduct_nonneg _ _ _ hcat
      rw [productSaveHook_stock]
      have h1 : 0 ≤ q.stock := hcat it.product q hfind
      have h2 : 1 ≤ it.quantity := hq it (List.mem_cons_self it rest)
      simp only
      omega

theorem processItems_nil (cat : Catalog) (sub : Int) (acc : List OrderItem) :
    processItems cat [] sub acc = (Except.ok (sub, acc), cat) := rfl

theorem processItems_cons (cat : Catalog) (it : ReqItem) (rest : List ReqItem)
    (sub : Int) (acc : List OrderItem) :
    processItems cat (it :: rest) sub acc =
      match cat it.product with
      | none => (Except.error (CreateError.notFound it.product), cat)
      | some product =>
        if product.stock < it.quantity then
          (Except.error (CreateError.insufficientStock product.name product.stock), cat)
        else
          match decreaseStock product it.quantity with
          | Except.error msg => (Except.error (CreateError.thrown msg), cat)
          | Except.ok p2 =>
            processItems (updateProduct cat it.product p2) rest
              (sub + product.price * it.quantity)
              (acc ++ [⟨it.product, product.name, product.price, it.quantity,
                product.price * it.quantity⟩]) := rfl

theorem processItems_cons_notFound (cat : Catalog) (it : ReqItem) (rest : List ReqItem)
    (sub : Int) (acc : List OrderItem) (h : cat it.product = none) :
    processItems cat (it :: rest) sub acc =
      (Except.error (CreateError.notFound it.product), cat) := by
  rw [processItems_cons, h]

theorem processItems_cons_short (cat : Catalog) (it : ReqItem) (rest : List ReqItem)
    (sub : Int) (acc : List OrderItem) (p : Product)
    (h : cat it.product = some p) (hlt : p.stock < it.quantity) :
    processItems cat (it :: rest) sub acc =
      (Except.error (CreateError.insufficientStock p.name p.stock), cat) := by
  rw [processItems_cons, h]
  simp only [if_pos hlt]

theorem processItems_cons_ok (cat : Catalog) (it : ReqItem) (rest : List ReqItem)
    (sub : Int) (acc : List OrderItem) (p : Product)
    (h : cat it.product = some p) (hge : ¬ p.stock < it.quantity) :
    processItems cat (it :: rest) sub acc =
      processItems
        (updateProduct cat it.product
          (productSaveHook { p with stock := p.stock - it.quantity, sales := p.sales + it.quantity }))
        rest (sub + p.price * it.quantity)
        (acc ++ [⟨it.product, p.name, p.price, it.quantity, p.price * it.quantity⟩]) := by
  rw [processItems_cons, h]
  simp only [if_neg hge]
  rw [decreaseStock_ok p it.quantity hge]

theorem processItems_ok_stock (items : List ReqItem) :
    ∀ (cat : Catalog) (sub : Int) (acc : List OrderItem) (S : Int) (its : List OrderItem),
      (processItems cat items sub acc).1 = Except.ok (S, its) →
      ∀ pid p, cat pid = some p →
        ∃ p2, (processItems cat items sub acc).2 pid = some p2 ∧
          p2.stock = p.stock - reqQty items pid := by
  induction items with
  | nil =>
    intro cat sub acc S its _ pid p hp
    rw [processItems_nil]
    exact ⟨p, hp, by rw [reqQty_nil]; omega⟩
  | cons it rest ih =>
    intro cat sub acc S its hok pid p hp
    rw [reqQty_cons]
    cases hfind : cat it.product with
    | none =>
      rw [processItems_cons_notFound cat it rest sub acc hfind] at hok
      exact absurd hok (by simp)
    | some q =>
      by_cases hlt : q.stock < it.quantity
      · rw [processItems_cons_short cat it rest sub acc q hfind hlt] at hok
        exact absurd hok (by simp)
      · rw [processItems_cons_ok cat it rest sub acc q hfind hlt] at hok ⊢
        by_cases he : it.product = pid
        · have hpq : q = p := by
            rw [he, hp] at hfind
            injection hfind with h2
            exact h2.symm
          subst hpq
          have hupd : updateProduct cat it.product
              (productSaveHook { q with stock := q.stock - it.quantity, sales := q.sales + it.quantity }) pid
              = some (productSaveHook { q with stock := q.stock - it.quantity, sales := q.sales + it.quantity }) := by
            rw [← he]
            exact updateProduct_self cat it.product _
          obtain ⟨p2, h2, hs⟩ := ih _ _ _ S its hok pid _ hupd
          refine ⟨p2, h2, ?_⟩
          rw [productSaveHook_stock] at hs
          simp only at hs
          rw [if_pos he]
          omega
        · have hupd : updateProduct cat it.product
              (productSaveHook { q with stock := q.stock - it.quantity, sales := q.sales + it.quantity }) pid
              = some p := by
            rw [updateProduct_other cat it.product pid _ (fun e => he e.symm)]
            exact hp
          obtain ⟨p2, h2, hs⟩ := ih _ _ _ S its hok pid p hupd
          refine ⟨p2, h2, ?_⟩
          rw [if_neg he]
          omega

theorem itemPairs_append (a b : List OrderItem) :
    itemPairs (a ++ b) = itemPairs a ++ itemPairs b := by
  unfold itemPairs
  exact List.map_append _ a b

theorem processItems_ok_items (items : List ReqItem) :
    ∀ (cat : Catalog) (sub : Int) (acc : List OrderItem) (S : Int) (its : List OrderItem),
      (processItems cat items sub acc).1 = Except.ok (S, its) →
      itemPairs its = itemPairs acc ++ reqPairs items := by
  induction items with
  | nil =>
    intro cat sub acc S its hok
    rw [processItems_nil] at hok
    simp only at hok
    injection hok with h
    injection h with h1 h2
    rw [← h2]
    simp [reqPairs]
  | cons it rest ih =>
    intro cat sub acc S its hok
    cases hfind : cat it.product with
    | none =>
      rw [processItems_cons_notFound cat it rest sub acc hfind] at hok
      exact absurd hok (by simp)
    | some q =>
      by_cases hlt : q.stock < it.quantity
      · rw [processItems_cons_short cat it rest sub acc q hfind hlt] at hok
        exact absurd hok (by simp)
      · rw [processItems_cons_ok cat it rest sub acc q hfind hlt] at hok
        have := ih _ _ _ S its hok
        rw [this, itemPairs_append]
        simp [itemPairs, reqPairs]

theorem processItems_nonneg (items : List ReqItem) :
    ∀ (cat : Catalog) (sub : Int) (acc : List OrderItem),
      nonnegCatalog cat → nonnegCatalog (processItems cat items sub acc).2 := by
  induction items with
  | nil =>
    intro cat sub acc hcat
    rw [processItems_nil]
    exact hcat
  | cons it rest ih =>
    intro cat sub acc hcat
    cases hfind : cat it.product with
    | none =>
      rw [processItems_cons_notFound cat it rest sub acc hfind]
      exact hcat
    | some q =>
      by_cases hlt : q.stock < it.quantity
      · rw [processItems_cons_short cat it rest sub acc q hfind hlt]
        exact hcat
      · rw [processItems_cons_ok cat it rest sub acc q hfind hlt]
        apply ih
        apply updateProduct_nonneg _ _ _ hcat
        rw [productSaveHook_stock]
        simp only
        omega

theorem applyStockOps_nonneg (ops : List StockOp) :
    ∀ (cat : Catalog), (∀ op ∈ ops, stockOpWF op = true) →
      nonnegCatalog cat → nonnegCatalog (applyStockOps cat ops) := by
  induction ops with
  | nil =>
    intro cat _ hcat
    exact hcat
  | cons op rest ih =>
    intro cat hwf hcat
    show nonnegCatalog (applyStockOps (applyStockOp cat op) rest)
    apply ih _ (fun x hx => hwf x (List.mem_cons_of_mem op hx))
    cases op with
    | reserve items => exact processItems_nonneg items cat 0 [] hcat
    | restore items =>
      apply restoreItems_nonneg items _ cat hcat
      have h := hwf _ (List.mem_cons_self _ rest)
      simp only [stockOpWF, List.all_eq_true] at h
      intro it hit
      exact of_decide_eq_true (h it hit)

theorem statusHistoryHook_status (o : Order) (a b : Bool) (now : Nat) :
    (statusHistoryHook o a b now).status = o.status := by
  unfold statusHistoryHook
  split <;> rfl

theorem statusHistoryHook_cancelledAt (o : Order) (a b : Bool) (now : Nat) :
    (statusHistoryHook o a b now).cancelledAt = o.cancelledAt := by
  unfold statusHistoryHook
  split <;> rfl

theorem statusHistoryHook_cancellationReason (o : Order) (a b : Bool) (now : Nat) :
    (statusHistoryHook o a b now).cancellationReason = o.cancellationReason := by
  unfold statusHistoryHook
  split <;> rfl

theorem statusHistoryHook_isPaid (o : Order) (a b : Bool) (now : Nat) :
    (statusHistoryHook o a b now).isPaid = o.isPaid := by
  unfold statusHistoryHook
  split <;> rfl

theorem statusHistoryHook_paidAt (o : Order) (a b : Bool) (now : Nat) :
    (statusHistoryHook o a b now).paidAt = o.paidAt := by
  unfold statusHistoryHook
  split <;> rfl

theorem statusHistoryHook_paymentDetails (o : Order) (a b : Bool) (now : Nat) :
    (statusHistoryHook o a b now).paymentDetails = o.paymentDetails := by
  unfold statusHistoryHook
  split <;> rfl

theorem statusHistoryHook_new (o : Order) (b : Bool) (now : Nat) :
    statusHistoryHook o true b now = o := by
  unfold statusHistoryHook
  simp

theorem statusHistoryHook_mod (o : Order) (now : Nat) :
    statusHistoryHook o false true now =
      { o with statusHistory := o.statusHistory ++ [⟨o.status, none, none, now⟩] } := by
  unfold statusHistoryHook
  simp

theorem statusHistoryHook_unmod (o : Order) (now : Nat) :
    statusHistoryHook o false false now = o := by
  unfold statusHistoryHook
  simp

theorem yearTwoDigitAux : ∀ r < 100,
    lastTwoStr (Nat.repr (2000 + r)) = pad2 ((2000 + r) % 100) := by decide

theorem yearTwoDigit (year : Nat) (h1 : 2000 ≤ year) (h2 : year < 2100) :
    lastTwoStr (Nat.repr year) = pad2 (year % 100) := by
  have h3 : year = 2000 + (year - 2000) := by omega
  rw [h3]
  exact yearTwoDigitAux (year - 2000) (by omega)

theorem stringMk_length (l : List Char) : (String.mk l).length = l.length := rfl

theorem padStart_length (n : Nat) (s : String) (h : s.length ≤ n) :
    (padStart n s).length = n := by
  unfold padStart
  split
  · omega
  · rw [String.length_append, stringMk_length, List.length_replicate]
    omega

theorem pad2_length (n : Nat) (h : n < 100) : (pad2 n).length = 2 := by
  apply padStart_length
  exact Nat.repr_length n 2 (by omega) (by norm_num; omega)

theorem pad4_length (n : Nat) (h : n < 10000) : (pad4 n).length = 4 := by
  apply padStart_length
  exact Nat.repr_length n 4 (by omega) (by norm_num; omega)

/-- C1: the claim says a failed multi-item creation restores the stock already
decremented for items 1..N-1 before returning its error. The code has no such
compensation: with product 1 at stock 3 and product 2 at stock 5, creating an
order of one unit of product 1 and ten units of product 2 fails on the second
item with the insufficient-stock error, yet product 1 is left at stock 2, not
at its pre-call value 3. -/
theorem createOrder_leaves_partial_decrement :
    (createOrder c1cat 7 [⟨1, 1⟩, ⟨2, 10⟩] 2025 10 6 0 99).1
      = Except.error (CreateError.insufficientStock ("DHT22") 5) ∧
    (c1cat 1).map Product.stock = some 3 ∧
    ((createOrder c1cat 7 [⟨1, 1⟩, ⟨2, 10⟩] 2025 10 6 0 99).2 1).map Product.stock = some 2 ∧
    some (2 : Int) ≠ some (3 : Int) := by
  refine ⟨by decide, by decide, by decide, by decide⟩

/-- C2: in the reserve loop, an item whose quantity exceeds the product's
current stock makes the call fail with the insufficient-stock error carrying
the available quantity; and any sequence of reserve and restore operations
(restores acting on schema-valid line items with quantity at least 1)
preserves non-negativity of every stock in the catalog. -/
theorem reserve_insufficient_and_stock_nonneg (cat : Catalog) :
    (∀ (item : ReqItem) (rest : List ReqItem) (sub : Int) (acc : List OrderItem) (p : Product),
      cat item.product = some p → p.stock < item.quantity →
      (processItems cat (item :: rest) sub acc).1 =
        Except.error (CreateError.insufficientStock p.name p.stock)) ∧
    (∀ ops : List StockOp, (∀ op ∈ ops, stockOpWF op = true) →
      nonnegCatalog cat → nonnegCatalog (applyStockOps cat ops)) := by
  constructor
  · intro item rest sub acc p hfind hlt
    rw [processItems_cons_short cat item rest sub acc p hfind hlt]
  · intro ops hwf hcat
    exact applyStockOps_nonneg ops cat hwf hcat

theorem reserve_insufficient_and_stock_nonneg_witness :
    (c2cat 1 = some c2prod ∧ c2prod.stock < (2 : Int) ∧
      (∀ op ∈ c2ops, stockOpWF op = true) ∧ nonnegCatalog c2cat) ∧
    (processItems c2cat [⟨1, 2⟩] 0 []).1
      = Except.error (CreateError.insufficientStock c2prod.name c2prod.stock) ∧
    nonnegCatalog (applyStockOps c2cat c2ops) := by
  have hnn : nonnegCatalog c2cat := by
    intro pid p hp
    unfold c2cat at hp
    split at hp
    · injection hp with h
      subst h
      decide
    · exact Option.noConfusion hp
  refine ⟨⟨by decide, by decide, by decide, hnn⟩, ?_, ?_⟩
  · exact (reserve_insufficient_and_stock_nonneg c2cat).1 ⟨1, 2⟩ [] 0 [] c2prod (by decide) (by decide)
  · exact (reserve_insufficient_and_stock_nonneg c2cat).2 c2ops (by decide) hnn

theorem canBeCancelled_iff (o : Order) :
    o.canBeCancelled = true ↔ (o.status = "pending" ∨ o.status = "confirmed") := by
  unfold Order.canBeCancelled
  simp

theorem cancelOrder_fail (cat : Catalog) (o : Order) (reason : Option String) (now : Nat)
    (h : o.canBeCancelled = false) :
    cancelOrder cat o reason now = (CancelResult.notCancellable o.status, cat) := by
  unfold cancelOrder
  rw [h]
  rfl

theorem cancelOrder_ok (cat : Catalog) (o : Order) (reason : Option String) (now : Nat)
    (h : o.canBeCancelled = true) :
    cancelOrder cat o reason now =
      (CancelResult.ok (o.cancel (reason.getD defaultCancelReason) now),
        restoreItems cat o.items) := by
  unfold cancelOrder
  rw [h]
  rfl

theorem cancel_fields (o : Order) (reason : String) (now : Nat) :
    (o.cancel reason now).status = "cancelled" ∧
    (o.cancel reason now).cancelledAt = some now ∧
    (o.cancel reason now).cancellationReason = some reason := by
  unfold Order.cancel
  refine ⟨?_, ?_, ?_⟩
  · rw [statusHistoryHook_status]
  · rw [statusHistoryHook_cancelledAt]
  · rw [statusHistoryHook_cancellationReason]

/-- C3: cancellation succeeds exactly when the status is pending or confirmed;
on success every line item's product (all assumed still present) has its
stock incremented by the quantities the order holds for it, the status
becomes cancelled, and cancelledAt and the reason are recorded; otherwise the
call fails carrying the current status and leaves the catalog (and the
order) untouched. -/
theorem cancelOrder_correct (cat : Catalog) (o : Order) (reason : String) (now : Nat)
    (hexists : ∀ it ∈ o.items, (cat it.product).isSome = true) :
    (o.canBeCancelled = true ↔ (o.status = "pending" ∨ o.status = "confirmed")) ∧
    (o.canBeCancelled = false →
      cancelOrder cat o (some reason) now = (CancelResult.notCancellable o.status, cat)) ∧
    (o.canBeCancelled = true →
      ∃ o2, (cancelOrder cat o (some reason) now).1 = CancelResult.ok o2 ∧
        o2.status = "cancelled" ∧ o2.cancelledAt = some now ∧
        o2.cancellationReason = some reason ∧
        ∀ it ∈ o.items, ∃ p p2, cat it.product = some p ∧
          (cancelOrder cat o (some reason) now).2 it.product = some p2 ∧
          p2.stock = p.stock + itemQty o.items it.product) := by
  refine ⟨canBeCancelled_iff o, ?_, ?_⟩
  · intro h
    exact cancelOrder_fail cat o (some reason) now h
  · intro hcan
    rw [cancelOrder_ok cat o (some reason) now hcan]
    obtain ⟨hst, hat, hre⟩ := cancel_fields o reason now
    refine ⟨o.cancel reason now, rfl, hst, hat, hre, ?_⟩
    intro it hit
    have hs := hexists it hit
    rw [Option.isSome_iff_exists] at hs
    obtain ⟨p, hp⟩ := hs
    obtain ⟨p2, h2, hq⟩ := restoreItems_stock o.items cat it.product p hp
    exact ⟨p, p2, hp, h2, hq⟩

theorem cancelOrder_correct_witness :
    (∀ it ∈ sampleOrder.items, (sampleCat it.product).isSome = true) ∧
    ((sampleOrder.canBeCancelled = true ↔
        (sampleOrder.status = "pending" ∨ sampleOrder.status = "confirmed")) ∧
      (sampleOrder.canBeCancelled = false →
        cancelOrder sampleCat sampleOrder (some ("changed mind")) 55 =
          (CancelResult.notCancellable sampleOrder.status, sampleCat)) ∧
      (sampleOrder.canBeCancelled = true →
        ∃ o2, (cancelOrder sampleCat sampleOrder (some ("changed mind")) 55).1
            = CancelResult.ok o2 ∧
          o2.status = "cancelled" ∧ o2.cancelledAt = some 55 ∧
          o2.cancellationReason = some ("changed mind") ∧
          ∀ it ∈ sampleOrder.items, ∃ p p2, sampleCat it.product = some p ∧
            (cancelOrder sampleCat sampleOrder (some ("changed mind")) 55).2 it.product = some p2 ∧
            p2.stock = p.stock + itemQty sampleOrder.items it.product)) :=
  ⟨by decide, cancelOrder_correct sampleCat sampleOrder ("changed mind") 55 (by decide)⟩

/-- C10: cancelling a cancellable order still succeeds when a line item's
product no longer exists: the cancellation fields are set as usual, absent
products remain absent (their restoration is silently skipped), and each
surviving product's stock is incremented by the quantities the order holds
for it. -/
theorem cancelOrder_skips_missing_product (cat : Catalog) (o : Order) (reason : String)
    (now : Nat) (hcan : o.canBeCancelled = true) :
    ∃ o2, (cancelOrder cat o (some reason) now).1 = CancelResult.ok o2 ∧
      o2.status = "cancelled" ∧ o2.cancelledAt = some now ∧
      o2.cancellationReason = some reason ∧
      (∀ pid, cat pid = none → (cancelOrder cat o (some reason) now).2 pid = none) ∧
      (∀ pid p, cat pid = some p →
        ∃ p2, (cancelOrder cat o (some reason) now).2 pid = some p2 ∧
          p2.stock = p.stock + itemQty o.items pid) := by
  rw [cancelOrder_ok cat o (some reason) now hcan]
  obtain ⟨hst, hat, hre⟩ := cancel_fields o reason now
  refine ⟨o.cancel reason now, rfl, hst, hat, hre, ?_, ?_⟩
  · intro pid hnone
    exact restoreItems_none o.items cat pid hnone
  · intro pid p hp
    exact restoreItems_stock o.items cat pid p hp

theorem cancelOrder_skips_missing_product_witness :
    (c10order.canBeCancelled = true ∧ sampleCat 9 = none ∧
      (c10order.items.map OrderItem.product).contains 9 = true) ∧
    (∃ o2, (cancelOrder sampleCat c10order (some ("why not")) 77).1 = CancelResult.ok o2 ∧
      o2.status = "cancelled" ∧ o2.cancelledAt = some 77 ∧
      o2.cancellationReason = some ("why not") ∧
      (∀ pid, sampleCat pid = none →
        (cancelOrder sampleCat c10order (some ("why not")) 77).2 pid = none) ∧
      (∀ pid p, sampleCat pid = some p →
        ∃ p2, (cancelOrder sampleCat c10order (some ("why not")) 77).2 pid = some p2 ∧
          p2.stock = p.stock + itemQty c10order.items pid)) :=
  ⟨⟨by decide, by decide, by decide⟩,
    cancelOrder_skips_missing_product sampleCat c10order ("why not") 77 (by decide)⟩

/-- C4: when the reserve loop succeeds, restoring the produced line items
(the same quantities that were reserved) brings every product in the catalog
back to its pre-reserve stock. -/
theorem reserve_restore_roundtrip (cat : Catalog) (items : List ReqItem)
    (S : Int) (its : List OrderItem)
    (h : (processItems cat items 0 []).1 = Except.ok (S, its)) :
    ∀ pid p, cat pid = some p →
      ∃ p2, restoreItems (processItems cat items 0 []).2 its pid = some p2 ∧
        p2.stock = p.stock := by
  intro pid p hp
  obtain ⟨p1, hp1, hs1⟩ := processItems_ok_stock items cat 0 [] S its h pid p hp
  obtain ⟨p2, hp2, hs2⟩ := restoreItems_stock its _ pid p1 hp1
  refine ⟨p2, hp2, ?_⟩
  have hpairs := processItems_ok_items items cat 0 [] S its h
  have hq : itemQty its pid = reqQty items pid := by
    unfold itemQty reqQty
    rw [hpairs]
    rfl
  rw [hq] at hs2
  omega

theorem reserve_restore_roundtrip_witness :
    ((processItems sampleCat [⟨1, 3⟩] 0 []).1 = Except.ok (30, [⟨1, "Uno", 10, 3, 30⟩])) ∧
    (∀ pid p, sampleCat pid = some p →
      ∃ p2, restoreItems (processItems sampleCat [⟨1, 3⟩] 0 []).2
          [⟨1, "Uno", 10, 3, 30⟩] pid = some p2 ∧
        p2.stock = p.stock) :=
  ⟨by decide, reserve_restore_roundtrip sampleCat [⟨1, 3⟩] 30 [⟨1, "Uno", 10, 3, 30⟩] (by decide)⟩

/-- C5 counterexample: the claim says a persisted order's status history holds
exactly one pending entry. Evaluating createOrder on a concrete catalog shows
the persisted order has status pending but an EMPTY status history: the
history pre-save hook skips new documents. -/
theorem createOrder_no_initial_history_entry :
    (((createOrder sampleCat 7 [⟨1, 2⟩] 2025 10 6 0 99).1).toOption.map
        (fun o => o.statusHistory.length) = some 0) ∧
    ¬ (((createOrder sampleCat 7 [⟨1, 2⟩] 2025 10 6 0 99).1).toOption.map
        (fun o => o.statusHistory.length) = some 1) ∧
    (((createOrder sampleCat 7 [⟨1, 2⟩] 2025 10 6 0 99).1).toOption.map Order.status
        = some ("pending")) := by
  refine ⟨by decide, by decide, by decide⟩

/-- C5 as amended: every order persisted by create has status pending and an
empty status history (the statusHistory pre-save hook only appends on a later
status change of an already-persisted document). -/
theorem createOrder_initial_state (cat : Catalog) (uid : Nat) (items : List ReqItem)
    (year month day count now : Nat) (o : Order)
    (h : (createOrder cat uid items year month day count now).1 = Except.ok o) :
    o.status = "pending" ∧ o.statusHistory = [] := by
  unfold createOrder at h
  cases hpi : processItems cat items 0 [] with
  | mk res cat2 =>
    rw [hpi] at h
    cases res with
    | error e => exact absurd h (by simp)
    | ok v =>
      obtain ⟨S, its⟩ := v
      simp only at h
      injection h with h2
      rw [← h2]
      rw [statusHistoryHook_new]
      unfold orderNumberHook
      split
      · exact ⟨rfl, rfl⟩
      · exact ⟨rfl, rfl⟩

theorem createOrder_initial_state_witness :
    ((createOrder sampleCat 7 [⟨1, 2⟩] 2025 10 6 0 99).1 = Except.ok sampleOrder) ∧
    (sampleOrder.status = "pending" ∧ sampleOrder.statusHistory = []) :=
  ⟨by decide, createOrder_initial_state sampleCat 7 [⟨1, 2⟩] 2025 10 6 0 99 sampleOrder (by decide)⟩

/-- C6: the claim says a colliding order number leads to retries with a
refreshed count, bounded, with an identifier-exhausted error only past the
budget. The pre-save hook computes the number exactly once and the code
catches nothing: two same-day creations that both read count 0 generate the
same number "EB2510060001", and the second insert surfaces the store's
duplicate-key rejection directly — no retry, no identifier-exhausted error. -/
theorem orderNumber_collision_unhandled :
    ((insertNewOrder [] c6blank 2025 10 6 0 99).toOption.map Order.orderNumber
      = some ("EB2510060001")) ∧
    insertNewOrder [("EB2510060001")] c6blank 2025 10 6 0 99 = Except.error msgDuplicateKey ∧
    generateOrderNumber 2025 10 6 0 = "EB2510060001" := by
  refine ⟨by decide, by decide, by decide⟩

/-- C7: for a day with count prior orders, the generated order number is the
EB prefix, the two-digit year, month and day, and the 4-digit zero-padded
value count + 1 — so the first order of a day ends in 0001. -/
theorem generateOrderNumber_format (year month day count : Nat)
    (hy1 : 2000 ≤ year) (hy2 : year < 2100) (hm : month < 100) (hd : day < 100)
    (hc : count + 1 < 10000) :
    generateOrderNumber year month day count = specOrderNumberShape year month day count ∧
    (pad2 (year % 100)).length = 2 ∧ (pad2 month).length = 2 ∧ (pad2 day).length = 2 ∧
    (pad4 (count + 1)).length = 4 ∧
    generateOrderNumber year month day 0 =
      "EB" ++ pad2 (year % 100) ++ pad2 month ++ pad2 day ++ "0001" := by
  refine ⟨?_, pad2_length _ (by omega), pad2_length _ hm, pad2_length _ hd,
    pad4_length _ hc, ?_⟩
  · unfold generateOrderNumber specOrderNumberShape
    rw [yearTwoDigit year hy1 hy2]
  · unfold generateOrderNumber
    rw [yearTwoDigit year hy1 hy2]
    rfl

theorem generateOrderNumber_format_witness :
    (2000 ≤ 2025 ∧ 2025 < 2100 ∧ 10 < 100 ∧ 6 < 100 ∧ 3 + 1 < 10000) ∧
    (generateOrderNumber 2025 10 6 3 = specOrderNumberShape 2025 10 6 3 ∧
      (pad2 (2025 % 100)).length = 2 ∧ (pad2 10).length = 2 ∧ (pad2 6).length = 2 ∧
      (pad4 (3 + 1)).length = 4 ∧
      generateOrderNumber 2025 10 6 0 =
        "EB" ++ pad2 (2025 % 100) ++ pad2 10 ++ pad2 6 ++ "0001") ∧
    generateOrderNumber 2025 10 6 3 = "EB2510060004" :=
  ⟨by decide,
    generateOrderNumber_format 2025 10 6 3 (by decide) (by decide) (by decide) (by decide)
      (by decide),
    by decide⟩

theorem markAsPaidCtrl_paid (o : Order) (info : PaymentInfo) (now : Nat)
    (h : o.isPaid = true) : markAsPaidCtrl o info now = PayResult.alreadyPaid := by
  unfold markAsPaidCtrl
  rw [h]
  rfl

theorem markAsPaidCtrl_notPaid (o : Order) (info : PaymentInfo) (now : Nat)
    (h : o.isPaid = false) :
    markAsPaidCtrl o info now = PayResult.ok (o.markAsPaid info now) := by
  unfold markAsPaidCtrl
  rw [h]
  rfl

theorem markAsPaid_eq (o : Order) (info : PaymentInfo) (now : Nat) :
    o.markAsPaid info now =
      statusHistoryHook
        { o with
          isPaid := true,
          paidAt := some now,
          paymentDetails := mergePaymentDetails o.paymentDetails info now,
          status := if o.status = "pending" then "confirmed" else o.status }
        false
        ((if o.status = "pending" then "confirmed" else o.status) != o.status) now := rfl

/-- C8 counterexample: the claim says every successful markPaid appends one
status-history entry. An unpaid order in the processing status is marked paid
successfully, yet its status history stays empty: the hook appends only when
the status was modified, which happens only from pending. -/
theorem markAsPaid_no_history_when_not_pending :
    c8proc.isPaid = false ∧ c8proc.status = "processing" ∧
    c8proc.statusHistory.length = 0 ∧
    ((payResultOrder (markAsPaidCtrl c8proc samplePayInfo 66)).map
      (fun o => o.statusHistory.length) = some 0) ∧
    ¬ ((payResultOrder (markAsPaidCtrl c8proc samplePayInfo 66)).map
      (fun o => o.statusHistory.length) = some 1) ∧
    ((payResultOrder (markAsPaidCtrl c8proc samplePayInfo 66)).map Order.isPaid
      = some true) ∧
    ((payResultOrder (markAsPaidCtrl c8proc samplePayInfo 66)).map Order.status
      = some ("processing")) := by
  refine ⟨by decide, by decide, by decide, by decide, by decide, by decide, by decide⟩

/-- C8 as amended: markPaid fails with the already-paid error when the order
is paid; otherwise it sets isPaid and paidAt, merges the payment info into
paymentDetails, advances the status from pending to confirmed (the only case
in which it mutates status) and then appends one history entry; for an order
not in pending, the status and the history are left unchanged. -/
theorem markAsPaid_correct (o : Order) (info : PaymentInfo) (now : Nat) :
    (o.isPaid = true → markAsPaidCtrl o info now = PayResult.alreadyPaid) ∧
    (o.isPaid = false →
      ∃ o2, markAsPaidCtrl o info now = PayResult.ok o2 ∧
        o2.isPaid = true ∧ o2.paidAt = some now ∧
        o2.paymentDetails = mergePaymentDetails o.paymentDetails info now ∧
        (o.status = "pending" → o2.status = "confirmed" ∧
          o2.statusHistory = o.statusHistory ++ [⟨"confirmed", none, none, now⟩]) ∧
        (o.status ≠ "pending" → o2.status = o.status ∧
          o2.statusHistory = o.statusHistory)) := by
  constructor
  · intro h
    exact markAsPaidCtrl_paid o info now h
  · intro h
    rw [markAsPaidCtrl_notPaid o info now h]
    refine ⟨o.markAsPaid info now, rfl, ?_, ?_, ?_, ?_, ?_⟩
    · rw [markAsPaid_eq, statusHistoryHook_isPaid]
    · rw [markAsPaid_eq, statusHistoryHook_paidAt]
    · rw [markAsPaid_eq, statusHistoryHook_paymentDetails]
    · intro hst
      rw [markAsPaid_eq]
      constructor
      · rw [statusHistoryHook_status]
        simp [hst]
      · simp only [hst, if_pos]
        have hflag : (("confirmed" : String) != "pending") = true := by decide
        rw [hflag, statusHistoryHook_mod]
    · intro hst
      rw [markAsPaid_eq]
      rw [if_neg hst]
      rw [bne_self_eq_false, statusHistoryHook_unmod]
      exact ⟨rfl, rfl⟩

theorem markAsPaid_correct_witness :
    sampleOrder.isPaid = false ∧
    (∃ o2, markAsPaidCtrl sampleOrder samplePayInfo 66 = PayResult.ok o2 ∧
      o2.isPaid = true ∧ o2.paidAt = some 66 ∧
      o2.paymentDetails = mergePaymentDetails sampleOrder.paymentDetails samplePayInfo 66 ∧
      (sampleOrder.status = "pending" → o2.status = "confirmed" ∧
        o2.statusHistory = sampleOrder.statusHistory ++ [⟨"confirmed", none, none, 66⟩]) ∧
      (sampleOrder.status ≠ "pending" → o2.status = sampleOrder.status ∧
        o2.statusHistory = sampleOrder.statusHistory)) :=
  ⟨by decide, (markAsPaid_correct sampleOrder samplePayInfo 66).2 (by decide)⟩

theorem updateOrderStatus_invalid (o : Order) (st : String) (note : Option String)
    (uid now : Nat) (h : validStatuses.contains st = false) :
    updateOrderStatus o st note uid now = StatusResult.invalidStatus := by
  unfold updateOrderStatus
  rw [h]
  rfl

theorem updateOrderStatus_valid (o : Order) (st : String) (note : Option String)
    (uid now : Nat) (h : validStatuses.contains st = true) :
    updateOrderStatus o st note uid now =
      StatusResult.ok (o.updateStatus st note uid now) := by
  unfold updateOrderStatus
  rw [h]
  rfl

theorem updateStatus_eq (o : Order) (st : String) (note : Option String) (uid now : Nat) :
    o.updateStatus st note uid now =
      statusHistoryHook
        { o with
          status := st,
          statusHistory := o.statusHistory ++ [⟨st, note, some uid, now⟩] }
        false (st != o.status) now := rfl

/-- C9 counterexample: the claim says a valid transition appends exactly one
status-history entry. Moving a pending order to shipped appends TWO entries:
the method pushes one with the note and actor, and the pre-save hook then
pushes a second bare one because the status changed. -/
theorem updateStatus_appends_two_entries :
    sampleOrder.status = "pending" ∧ sampleOrder.statusHistory.length = 0 ∧
    ((statusResultOrder (updateOrderStatus sampleOrder ("shipped") (some ("note1")) 9 77)).map
      Order.statusHistory
      = some [⟨"shipped", some ("note1"), some 9, 77⟩, ⟨"shipped", none, none, 77⟩]) ∧
    ((statusResultOrder (updateOrderStatus sampleOrder ("shipped") (some ("note1")) 9 77)).map
      (fun o => o.statusHistory.length) = some 2) ∧
    ¬ ((statusResultOrder (updateOrderStatus sampleOrder ("shipped") (some ("note1")) 9 77)).map
      (fun o => o.statusHistory.length) = some 1) := by
  refine ⟨by decide, by decide, by decide, by decide, by decide⟩

/-- C9 as amended: transitionStatus fails with the invalid-status error when
newStatus is outside the six enum values; otherwise it sets the status with
no adjacency check and appends a history entry carrying the note and the
acting user — and when the new status differs from the previous one the
pre-save hook appends a second, bare entry, so the history grows by two;
it grows by exactly one only when the new status equals the current one. -/
theorem updateOrderStatus_correct (o : Order) (st : String) (note : Option String)
    (uid now : Nat) :
    (validStatuses.contains st = false →
      updateOrderStatus o st note uid now = StatusResult.invalidStatus) ∧
    (validStatuses.contains st = true →
      ∃ o2, updateOrderStatus o st note uid now = StatusResult.ok o2 ∧
        o2.status = st ∧
        (st ≠ o.status → o2.statusHistory =
          o.statusHistory ++ [⟨st, note, some uid, now⟩, ⟨st, none, none, now⟩]) ∧
        (st = o.status → o2.statusHistory =
          o.statusHistory ++ [⟨st, note, some uid, now⟩])) := by
  constructor
  · intro h
    exact updateOrderStatus_invalid o st note uid now h
  · intro h
    rw [updateOrderStatus_valid o st note uid now h]
    refine ⟨o.updateStatus st note uid now, rfl, ?_, ?_, ?_⟩
    · rw [updateStatus_eq, statusHistoryHook_status]
    · intro hne
      rw [updateStatus_eq]
      have hflag : (st != o.status) = true := by
        rw [bne_iff_ne]
        exact hne
      rw [hflag, statusHistoryHook_mod]
      simp
    · intro heq
      rw [updateStatus_eq]
      have hflag : (st != o.status) = false := by
        rw [bne_eq_false_iff_eq]
        exact heq
      rw [hflag, statusHistoryHook_unmod]

theorem updateOrderStatus_correct_witness :
    validStatuses.contains ("shipped") = true ∧
    (∃ o2, updateOrderStatus sampleOrder ("shipped") (some ("note1")) 9 77
        = StatusResult.ok o2 ∧
      o2.status = "shipped" ∧
      ("shipped" ≠ sampleOrder.status → o2.statusHistory =
        sampleOrder.statusHistory ++
          [⟨"shipped", some ("note1"), some 9, 77⟩, ⟨"shipped", none, none, 77⟩]) ∧
      ("shipped" = sampleOrder.status → o2.statusHistory =
        sampleOrder.statusHistory ++ [⟨"shipped", some ("note1"), some 9, 77⟩])) :=
  ⟨by decide,
    (updateOrderStatus_correct sampleOrder ("shipped") (some ("note1")) 9 77).2 (by decide)⟩
